import Mathlib

/-!
Verification of the Fishdle core logic: a shallow embedding of the
guess-comparison engine, score calculator (src/js/game.js), the
deterministic daily selection and the hint ledger (src/js/daily.js),
together with theorems settling the specification claims.
-/

namespace Fishdle

/-! ## Data model (spec §3, src/js/game.js) -/

/-- The four comparable attributes of a fish record (`fish.attributes`). -/
structure FishAttributes where
  habitat : String
  size : String
  family : String
  region : String
deriving DecidableEq, Repr

/-- A fish entity record. The display name is embedded as a list of
characters (JS string indexing). -/
structure Fish where
  id : String
  name : List Char
  attributes : FishAttributes
deriving DecidableEq, Repr

/-- Three-tier match classification for one attribute. -/
inductive MatchKind where
  | exact
  | close
  | wrong
deriving DecidableEq, Repr

/-- Directional hint for the ordinal size attribute. -/
inductive Direction where
  | up
  | down
deriving DecidableEq, Repr

/-- Comparison cell for habitat / family / region (`{value, match}`). -/
structure AttrComparison where
  value : String
  matchKind : MatchKind
deriving DecidableEq, Repr

/-- Comparison cell for size (`{value, match, direction}`); `none`
models the JS `null` direction. -/
structure SizeComparisonResult where
  value : String
  matchKind : MatchKind
  direction : Option Direction
deriving DecidableEq, Repr

/-- The full result of `compareAttributes`. -/
structure Comparison where
  habitat : AttrComparison
  size : SizeComparisonResult
  family : AttrComparison
  region : AttrComparison
deriving DecidableEq, Repr

/-! ## Constants of src/js/game.js -/

def BASE_SCORE : Int := 100
def GUESS_PENALTY : Int := 5
def MIN_SCORE : Int := 10

def SIZE_ORDER : List String := ["tiny", "small", "medium", "large", "giant"]

/-- `OCEAN_GROUPS` object of game.js, as an association list. -/
def OCEAN_GROUPS : List (String × List String) :=
  [("Atlantic", ["Atlantic", "Arctic"]),
   ("Pacific", ["Pacific", "Indian"]),
   ("Arctic", ["Atlantic", "Arctic"]),
   ("Indian", ["Pacific", "Indian"]),
   ("Freshwater Americas", ["Freshwater Americas"]),
   ("Freshwater Europe/Asia", ["Freshwater Europe/Asia"])]

/-- The keys of the `OCEAN_GROUPS` table. -/
def OCEAN_KEYS : List String := OCEAN_GROUPS.map Prod.fst

/-- JS `Array.prototype.indexOf`: first index of `x` in `l`, `-1` when
absent. -/
def jsIndexOf (l : List String) (x : String) : Int :=
  if x ∈ l then (l.indexOf x : Int) else -1

/-! ## compareAttributes (game.js lines 296-333) -/

/-- Embedding of `compareAttributes(guessed, target)`: habitat and family
compare by string equality; size via `SIZE_ORDER.indexOf` difference;
region by equality, else membership of the target region in the guessed
region's ocean group (`OCEAN_GROUPS[region] || []`). -/
def compareAttributes (guessed target : FishAttributes) : Comparison :=
  let guessedSizeIndex := jsIndexOf SIZE_ORDER guessed.size
  let targetSizeIndex := jsIndexOf SIZE_ORDER target.size
  let sizeDiff := guessedSizeIndex - targetSizeIndex
  let guessedOceanGroup := (OCEAN_GROUPS.lookup guessed.region).getD []
  let isCloseRegion := target.region ∈ guessedOceanGroup
  { habitat := { value := guessed.habitat,
                 matchKind := if guessed.habitat = target.habitat then .exact else .wrong }
    size := { value := guessed.size,
              matchKind := if sizeDiff = 0 then .exact
                           else if sizeDiff.natAbs = 1 then .close else .wrong,
              direction := if sizeDiff > 0 then some .down
                           else if sizeDiff < 0 then some .up else none }
    family := { value := guessed.family,
                matchKind := if guessed.family = target.family then .exact else .wrong }
    region := { value := guessed.region,
                matchKind := if guessed.region = target.region then .exact
                             else if isCloseRegion then .close else .wrong } }

/-! ## calculateScore (game.js lines 223-228) -/

/-- Embedding of `calculateScore()`, abstracted over the guess count and
the hint penalty it reads: `max(MIN_SCORE, BASE_SCORE - guesses.length *
GUESS_PENALTY - hintPenalty)`. -/
def calculateScore (guessCount hintPenalty : Nat) : Int :=
  max MIN_SCORE (BASE_SCORE - (guessCount : Int) * GUESS_PENALTY - (hintPenalty : Int))

/-! ## Spec-side formulas (spec §4.2), for comparison with the code -/

/-- Spec's size rule as written: `d = index(guessed) − index(target)`;
exact if `d = 0`, close if `|d| = 1`, else wrong. -/
def specSizeMatch (d : Int) : MatchKind :=
  if d = 0 then .exact else if d.natAbs = 1 then .close else .wrong

/-- Spec's size direction rule as written: down if `d > 0`, up if
`d < 0`, null if `d = 0`. -/
def specSizeDirection (d : Int) : Option Direction :=
  if 0 < d then some .down else if d < 0 then some .up else none

/-- Spec's region adjacency as described in the claim: Atlantic↔Arctic
and Pacific↔Indian are mutually close; Freshwater groups are close only
to themselves (hence contribute no distinct close pair). -/
def specRegionClose (a b : String) : Bool :=
  (a = "Atlantic" ∧ b = "Arctic") ∨ (a = "Arctic" ∧ b = "Atlantic") ∨
  (a = "Pacific" ∧ b = "Indian") ∨ (a = "Indian" ∧ b = "Pacific")

/-- Spec's region rule as written: exact on string equality, close on
adjacency, else wrong. -/
def specRegionMatch (a b : String) : MatchKind :=
  if a = b then .exact else if specRegionClose a b then .close else .wrong

/-! ## Claims C1, C2, C4, C5 -/

/-- The size cell of `compareAttributes` depends only on the two size
values (definitional unfolding). -/
theorem compareAttributes_size_cell (g t : FishAttributes) :
    (compareAttributes g t).size =
      { value := g.size,
        matchKind :=
          if jsIndexOf SIZE_ORDER g.size - jsIndexOf SIZE_ORDER t.size = 0 then .exact
          else if (jsIndexOf SIZE_ORDER g.size - jsIndexOf SIZE_ORDER t.size).natAbs = 1 then .close
          else .wrong,
        direction :=
          if jsIndexOf SIZE_ORDER g.size - jsIndexOf SIZE_ORDER t.size > 0 then some .down
          else if jsIndexOf SIZE_ORDER g.size - jsIndexOf SIZE_ORDER t.size < 0 then some .up
          else none } := rfl

/-- The region cell of `compareAttributes` depends only on the two
region values (definitional unfolding). -/
theorem compareAttributes_region_cell (g t : FishAttributes) :
    (compareAttributes g t).region =
      { value := g.region,
        matchKind :=
          if g.region = t.region then .exact
          else if t.region ∈ (OCEAN_GROUPS.lookup g.region).getD [] then .close
          else .wrong } := rfl

/-- C1: for guessed and target sizes on the 5-point ordinal scale,
`compareAttributes` classifies the size attribute by
`d = index(guessed) − index(target)`: exact if `d = 0`, close if
`|d| = 1`, else wrong; direction is down if `d > 0`, up if `d < 0`,
null if `d = 0`. -/
theorem compareAttributes_size_follows_scale (g t : FishAttributes)
    (hg : g.size ∈ SIZE_ORDER) (ht : t.size ∈ SIZE_ORDER) :
    (compareAttributes g t).size.matchKind =
      specSizeMatch ((SIZE_ORDER.indexOf g.size : Int) - (SIZE_ORDER.indexOf t.size : Int)) ∧
    (compareAttributes g t).size.direction =
      specSizeDirection ((SIZE_ORDER.indexOf g.size : Int) - (SIZE_ORDER.indexOf t.size : Int)) := by
  obtain ⟨gh, gs, gf, gr⟩ := g
  obtain ⟨th, ts, tf, tr⟩ := t
  simp only [SIZE_ORDER, List.mem_cons, List.not_mem_nil, or_false] at hg ht
  simp only [compareAttributes_size_cell]
  rcases hg with rfl | rfl | rfl | rfl | rfl <;>
    rcases ht with rfl | rfl | rfl | rfl | rfl
  all_goals exact ⟨rfl, rfl⟩

/-- Witness for C1: guessing "small" against target "tiny" (one step
above) compares close with direction down. -/
theorem compareAttributes_size_follows_scale_witness :
    ("small" ∈ SIZE_ORDER) ∧ ("tiny" ∈ SIZE_ORDER) ∧
    ((compareAttributes ⟨"Reef", "small", "Cyprinidae", "Pacific"⟩
        ⟨"Reef", "tiny", "Cyprinidae", "Pacific"⟩).size.matchKind =
      specSizeMatch ((SIZE_ORDER.indexOf "small" : Int) - (SIZE_ORDER.indexOf "tiny" : Int)) ∧
     (compareAttributes ⟨"Reef", "small", "Cyprinidae", "Pacific"⟩
        ⟨"Reef", "tiny", "Cyprinidae", "Pacific"⟩).size.direction =
      specSizeDirection ((SIZE_ORDER.indexOf "small" : Int) - (SIZE_ORDER.indexOf "tiny" : Int))) :=
  ⟨by decide, by decide,
   compareAttributes_size_follows_scale _ _ (by decide) (by decide)⟩

/-- C2: for regions present in the adjacency table, `compareAttributes`
classifies the region attribute as exact on string equality, close when
the guessed region's group contains the target region (Atlantic↔Arctic,
Pacific↔Indian; Freshwater groups close only to themselves), else
wrong; in particular Atlantic vs target Arctic is close and Freshwater
Americas vs target Pacific is wrong. -/
theorem compareAttributes_region_follows_groups (g t : FishAttributes)
    (hg : g.region ∈ OCEAN_KEYS) (ht : t.region ∈ OCEAN_KEYS) :
    (compareAttributes g t).region.matchKind = specRegionMatch g.region t.region ∧
    (compareAttributes ⟨"Reef", "small", "Labridae", "Atlantic"⟩
       ⟨"Reef", "small", "Labridae", "Arctic"⟩).region.matchKind = .close ∧
    (compareAttributes ⟨"Reef", "small", "Labridae", "Freshwater Americas"⟩
       ⟨"Reef", "small", "Labridae", "Pacific"⟩).region.matchKind = .wrong := by
  obtain ⟨gh, gs, gf, gr⟩ := g
  obtain ⟨th, ts, tf, tr⟩ := t
  simp only [OCEAN_KEYS, OCEAN_GROUPS, List.map_cons, List.map_nil, List.mem_cons,
    List.not_mem_nil, or_false] at hg ht
  simp only [compareAttributes_region_cell]
  rcases hg with rfl | rfl | rfl | rfl | rfl | rfl <;>
    rcases ht with rfl | rfl | rfl | rfl | rfl | rfl
  all_goals exact ⟨rfl, rfl, rfl⟩

/-- Witness for C2: the Atlantic vs Arctic instance. -/
theorem compareAttributes_region_follows_groups_witness :
    ("Atlantic" ∈ OCEAN_KEYS) ∧ ("Arctic" ∈ OCEAN_KEYS) ∧
    (compareAttributes ⟨"Reef", "small", "Labridae", "Atlantic"⟩
       ⟨"Reef", "small", "Labridae", "Arctic"⟩).region.matchKind =
      specRegionMatch "Atlantic" "Arctic" :=
  ⟨by decide, by decide,
   (compareAttributes_region_follows_groups
      ⟨"Reef", "small", "Labridae", "Atlantic"⟩
      ⟨"Reef", "small", "Labridae", "Arctic"⟩ (by decide) (by decide)).1⟩

/-- Counterexample to C4: the size value "huge" is outside the 5-point
scale, yet `compareAttributes` does not abort with an
InvalidAttributeError — it returns an ordinary comparison result, and
(both invalid sizes indexing to −1) even classifies the size as exact. -/
theorem compareAttributes_invalid_returns_result :
    ("huge" ∉ SIZE_ORDER) ∧
    (compareAttributes ⟨"Reef", "huge", "Labridae", "Pacific"⟩
       ⟨"Reef", "huge", "Labridae", "Pacific"⟩).size.matchKind = .exact := by
  decide

/-- C4 amended: `compareAttributes` never signals an error on
out-of-domain attribute values; an unknown size is given the sentinel
index −1 (so two out-of-domain sizes compare exact with null
direction), and an unknown guessed region gets the empty ocean group
(so, unless string-equal to the target, it compares wrong). -/
theorem compareAttributes_invalid_defaults (g t : FishAttributes)
    (hgs : g.size ∉ SIZE_ORDER) (hts : t.size ∉ SIZE_ORDER)
    (hgr : g.region ∉ OCEAN_KEYS) (hne : g.region ≠ t.region) :
    (compareAttributes g t).size.matchKind = .exact ∧
    (compareAttributes g t).size.direction = none ∧
    (compareAttributes g t).region.matchKind = .wrong := by
  have hidx : ∀ s : String, s ∉ SIZE_ORDER → jsIndexOf SIZE_ORDER s = -1 := by
    intro s hs
    simp [jsIndexOf, hs]
  have hlook : OCEAN_GROUPS.lookup g.region = none := by
    simp only [OCEAN_KEYS, OCEAN_GROUPS, List.map_cons, List.map_nil, List.mem_cons,
      List.not_mem_nil, or_false, not_or] at hgr
    obtain ⟨h1, h2, h3, h4, h5, h6⟩ := hgr
    simp only [OCEAN_GROUPS, List.lookup, beq_eq_false_iff_ne.mpr h1,
      beq_eq_false_iff_ne.mpr h2, beq_eq_false_iff_ne.mpr h3, beq_eq_false_iff_ne.mpr h4,
      beq_eq_false_iff_ne.mpr h5, beq_eq_false_iff_ne.mpr h6]
  simp [compareAttributes, hidx g.size hgs, hidx t.size hts, hlook, hne]

/-- Witness for C4 amended: two fish with sizes "huge" and "enormous"
and an unlisted guessed region "Atlantis". -/
theorem compareAttributes_invalid_defaults_witness :
    ("huge" ∉ SIZE_ORDER) ∧ ("enormous" ∉ SIZE_ORDER) ∧
    ("Atlantis" ∉ OCEAN_KEYS) ∧ ("Atlantis" ≠ "Pacific") ∧
    ((compareAttributes ⟨"Reef", "huge", "Labridae", "Atlantis"⟩
        ⟨"Reef", "enormous", "Labridae", "Pacific"⟩).size.matchKind = .exact ∧
     (compareAttributes ⟨"Reef", "huge", "Labridae", "Atlantis"⟩
        ⟨"Reef", "enormous", "Labridae", "Pacific"⟩).size.direction = none ∧
     (compareAttributes ⟨"Reef", "huge", "Labridae", "Atlantis"⟩
        ⟨"Reef", "enormous", "Labridae", "Pacific"⟩).region.matchKind = .wrong) :=
  ⟨by decide, by decide, by decide, by decide,
   compareAttributes_invalid_defaults _ _ (by decide) (by decide) (by decide) (by decide)⟩

/-- C5: for every guessCount and hintPenalty, the score is exactly
`max(10, 100 − 5 × guessCount − hintPenalty)`, hence always at least
10. -/
theorem calculateScore_formula_and_floor (g h : Nat) :
    calculateScore g h = max 10 (100 - 5 * (g : Int) - (h : Int)) ∧
    10 ≤ calculateScore g h := by
  constructor
  · simp [calculateScore, BASE_SCORE, GUESS_PENALTY, MIN_SCORE, Int.mul_comm]
  · exact le_max_left _ _

/-! ## Daily selection (src/js/daily.js)

A JS `Date` at UTC midnight is embedded as its civil calendar date; its
timestamp (`getTime()`, milliseconds since the Unix epoch) is recovered
through the standard civil-from-days conversion. -/

/-- A UTC calendar date (`new Date(Date.UTC(y, m-1, d))`), month and day
1-based. -/
structure CivilDate where
  year : Nat
  month : Nat
  day : Nat
deriving DecidableEq, Repr

/-- Days since the Unix epoch 1970-01-01 of the civil date y-m-d
(proleptic Gregorian; Howard Hinnant's `days_from_civil`). This embeds
what `Date.UTC` computes, at day granularity. -/
def daysFromCivil (y : Int) (m d : Nat) : Int :=
  let yAdj : Int := if m ≤ 2 then y - 1 else y
  let era : Int := yAdj.fdiv 400
  let yoe : Nat := (yAdj - era * 400).toNat
  let mp : Nat := if 2 < m then m - 3 else m + 9
  let doy : Nat := (153 * mp + 2) / 5 + d - 1
  let doe : Nat := yoe * 365 + yoe / 4 - yoe / 100 + doy
  era * 146097 + doe - 719468

/-- Milliseconds in one day (`1000 * 60 * 60 * 24`). -/
def msPerDay : Int := 86400000

/-- `date.getTime()` for a date constructed at UTC midnight. -/
def utcMillis (dt : CivilDate) : Int :=
  daysFromCivil dt.year dt.month dt.day * msPerDay

/-- `new Date(Date.UTC(2024, 0, 1)).getTime()` — the launch date. -/
def launchDateMillis : Int := daysFromCivil 2024 1 1 * msPerDay

/-- Embedding of `getGameNumber(date)` over the date's timestamp:
`Math.floor((date - launchDate) / msPerDay) + 1`. JS `Math.floor`
rounds toward minus infinity, i.e. `Int.fdiv`. -/
def getGameNumber (t : Int) : Int :=
  (t - launchDateMillis).fdiv msPerDay + 1

/-- Embedding of `dateToSeed(date)`: `parseInt(`${year}${month}${day}`)`
with zero-padded two-digit month and day, i.e. `y*10000 + m*100 + d`. -/
def dateToSeed (dt : CivilDate) : Nat :=
  dt.year * 10000 + dt.month * 100 + dt.day

/-- `2^32`, the divisor `4294967296` in `seededRandom`. -/
def UINT32 : Nat := 4294967296

/-- The mulberry32 additive constant `0x6D2B79F5`. -/
def MULBERRY_INC : Nat := 0x6D2B79F5

/-- `Math.imul`: 32-bit multiplication. The JS value is the signed
reading of this unsigned 32-bit pattern; every later operation in
`seededRandom` coerces back to 32-bit, so the unsigned residue is the
faithful carrier. -/
def imul32 (a b : Nat) : Nat := a * b % UINT32

/-- The raw 32-bit output `(t ^ t >>> 14) >>> 0` of the first call of
the closure returned by `seededRandom(seed)` (daily.js lines 8-15),
computed on unsigned 32-bit residues. -/
def mulberryOut (seed : Nat) : Nat :=
  let t0 := (seed + MULBERRY_INC) % UINT32
  let t1 := imul32 (t0 ^^^ (t0 >>> 15)) (t0 ||| 1)
  let t2 := t1 ^^^ ((t1 + imul32 (t1 ^^^ (t1 >>> 7)) (t1 ||| 61)) % UINT32)
  (t2 ^^^ (t2 >>> 14)) % UINT32

/-- The floating value returned by the generator:
`((t ^ t >>> 14) >>> 0) / 4294967296`. -/
def mulberryValue (seed : Nat) : ℚ :=
  (mulberryOut seed : ℚ) / (UINT32 : ℚ)

/-- The object returned by `getDailyFish`; `fish` is an `Option`
because JS indexing out of an array's range yields `undefined`. -/
structure DailyResult where
  fish : Option Fish
  gameNumber : Int
  date : CivilDate
deriving DecidableEq, Repr

/-- Embedding of `getDailyFish(fishDatabase, date)` (daily.js lines
40-54): seeds the generator from the date, takes
`Math.floor(rng() * fishDatabase.length)` and indexes the database. -/
def getDailyFish (fishDatabase : List Fish) (date : CivilDate) : DailyResult :=
  let seed := dateToSeed date
  let index : Nat := ⌊mulberryValue seed * (fishDatabase.length : ℚ)⌋₊
  { fish := fishDatabase.get? index,
    gameNumber := getGameNumber (utcMillis date),
    date := date }

/-! ## Claims C3, C6, C10 -/

/-- C6: the game index is `floor((date − 2024-01-01 UTC) / 1 day) + 1`:
it is 1 for 2024-01-01, equals the day difference from the epoch plus
one for every calendar date, and increases by exactly 1 between
consecutive calendar days (UTC-midnight timestamps one day apart). -/
theorem getGameNumber_epoch_formula :
    getGameNumber (utcMillis ⟨2024, 1, 1⟩) = 1 ∧
    (∀ dt : CivilDate, getGameNumber (utcMillis dt) =
      (daysFromCivil dt.year dt.month dt.day - daysFromCivil 2024 1 1) + 1) ∧
    (∀ n : Int, getGameNumber ((n + 1) * msPerDay) = getGameNumber (n * msPerDay) + 1) := by
  have key : ∀ n : Int, getGameNumber (n * msPerDay) = (n - daysFromCivil 2024 1 1) + 1 := by
    intro n
    unfold getGameNumber launchDateMillis
    have h : n * msPerDay - daysFromCivil 2024 1 1 * msPerDay =
        (n - daysFromCivil 2024 1 1) * msPerDay := by ring
    rw [h, Int.mul_fdiv_cancel _ (by decide : msPerDay ≠ 0)]
  refine ⟨?_, fun dt => key _, fun n => ?_⟩
  · have h := key (daysFromCivil 2024 1 1)
    simpa [utcMillis] using h
  · rw [key, key]
    omega

/-- Counterexample to C3: on the empty database `getDailyFish` does not
fail with a ConfigurationError — it returns an ordinary selection
object whose `fish` is `undefined` (out-of-bounds indexing), with the
usual game number. -/
theorem getDailyFish_empty_returns :
    (getDailyFish [] ⟨2024, 1, 1⟩).fish = none ∧
    (getDailyFish [] ⟨2024, 1, 1⟩).gameNumber = 1 := by
  constructor
  · simp [getDailyFish]
  · decide

/-- C3 amended: applied to an empty entity database, `getDailyFish`
signals no error at all; the non-empty-database precondition is never
checked, and the result is a normal selection record whose `fish` field
is `undefined`. -/
theorem getDailyFish_empty_fish_undefined (date : CivilDate) :
    (getDailyFish [] date).fish = none ∧
    (getDailyFish [] date).gameNumber = getGameNumber (utcMillis date) := by
  exact ⟨by simp [getDailyFish], rfl⟩

/-- C10: every value of the seeded generator lies in [0,1), hence for a
non-empty database the selection index `floor(rng() * length)` is in
bounds and the selected fish is an element of the database. -/
theorem getDailyFish_index_in_bounds :
    (∀ seed : Nat, 0 ≤ mulberryValue seed ∧ mulberryValue seed < 1) ∧
    (∀ (db : List Fish) (date : CivilDate), db ≠ [] →
      ⌊mulberryValue (dateToSeed date) * (db.length : ℚ)⌋₊ < db.length ∧
      ∃ f, (getDailyFish db date).fish = some f ∧ f ∈ db) := by
  have hU : 0 < UINT32 := by decide
  have hout : ∀ s : Nat, mulberryOut s < UINT32 := by
    intro s
    unfold mulberryOut
    exact Nat.mod_lt _ hU
  have hval : ∀ s : Nat, 0 ≤ mulberryValue s ∧ mulberryValue s < 1 := by
    intro s
    constructor
    · exact div_nonneg (Nat.cast_nonneg _) (Nat.cast_nonneg _)
    · rw [mulberryValue, div_lt_one (by exact_mod_cast hU)]
      exact_mod_cast hout s
  have hidx : ∀ (s n : Nat), 0 < n → ⌊mulberryValue s * (n : ℚ)⌋₊ < n := by
    intro s n hn
    have hcast : mulberryValue s * (n : ℚ) = ((mulberryOut s * n : Nat) : ℚ) / (UINT32 : ℚ) := by
      rw [mulberryValue]
      push_cast
      ring
    rw [hcast, Nat.floor_div_nat, Nat.floor_natCast]
    rw [Nat.div_lt_iff_lt_mul hU]
    calc mulberryOut s * n < UINT32 * n := Nat.mul_lt_mul_of_pos_right (hout s) hn
    _ = n * UINT32 := Nat.mul_comm _ _
  refine ⟨hval, fun db date hdb => ?_⟩
  have hn : 0 < db.length := List.length_pos.mpr hdb
  have hlt := hidx (dateToSeed date) db.length hn
  refine ⟨hlt, db.get ⟨_, hlt⟩, ?_, List.get_mem _ _ _⟩
  show db.get? _ = _
  exact List.get?_eq_get hlt

/-- Sample fish record used to instantiate hypotheses of the claims. -/
def sampleFish : Fish :=
  { id := "clownfish",
    name := ['C', 'l', 'o', 'w', 'n', 'f', 'i', 's', 'h'],
    attributes := ⟨"Reef", "small", "Pomacentridae", "Pacific"⟩ }

/-- Witness for C10: a one-element database on 2024-01-01. -/
theorem getDailyFish_index_in_bounds_witness :
    (([sampleFish] : List Fish) ≠ []) ∧
    (⌊mulberryValue (dateToSeed ⟨2024, 1, 1⟩) * (([sampleFish] : List Fish).length : ℚ)⌋₊ <
        ([sampleFish] : List Fish).length ∧
      ∃ f, (getDailyFish [sampleFish] ⟨2024, 1, 1⟩).fish = some f ∧ f ∈ [sampleFish]) :=
  ⟨by simp, getDailyFish_index_in_bounds.2 [sampleFish] ⟨2024, 1, 1⟩ (by simp)⟩

/-! ## Hint ledger (src/js/daily.js, `Hints` module)

The module's mutable `revealedLetters` / `revealedAttributes` arrays
are made an explicit state record; `Math.random()` choices are passed
in as an arbitrary natural number, reduced modulo the number of
candidates (the JS index `Math.floor(Math.random() * len)` always lies
in `[0, len)`). -/

def LETTER_HINT_COST : Nat := 10
def ATTRIBUTE_HINT_COST : Nat := 5

/-- `Object.keys(targetFish.attributes)`: the four attribute names. -/
def ATTRIBUTE_KEYS : List String := ["habitat", "size", "family", "region"]

/-- The `ATTRIBUTE_LABELS` map. -/
def ATTRIBUTE_LABELS : List (String × String) :=
  [("habitat", "Habitat"), ("size", "Size"), ("family", "Family"), ("region", "Region")]

/-- `targetFish.attributes[attr]` for a dynamic key. -/
def attributeValue (a : FishAttributes) (key : String) : Option String :=
  if key = "habitat" then some a.habitat
  else if key = "size" then some a.size
  else if key = "family" then some a.family
  else if key = "region" then some a.region
  else none

/-- The module state `{revealedLetters, revealedAttributes}`. -/
structure HintState where
  revealedLetters : List Nat
  revealedAttributes : List String
deriving DecidableEq, Repr

/-- `Hints.init(fish, ...)`: resets both arrays to empty. -/
def initHints (_fish : Fish) : HintState :=
  { revealedLetters := [], revealedAttributes := [] }

/-- A serialized state as produced by `getState` / consumed by
`loadState`; `none` models an absent (falsy) field. -/
structure SerializedHints where
  revealedLetters : Option (List Nat)
  revealedAttributes : Option (List String)
deriving DecidableEq, Repr

/-- `Hints.getState()`: copies of both arrays. -/
def getState (s : HintState) : SerializedHints :=
  { revealedLetters := some s.revealedLetters,
    revealedAttributes := some s.revealedAttributes }

/-- `Hints.loadState(state)`: each field overwrites the current one
when present (JS arrays, even empty, are truthy). -/
def loadState (cur : HintState) (st : SerializedHints) : HintState :=
  { revealedLetters := st.revealedLetters.getD cur.revealedLetters,
    revealedAttributes := st.revealedAttributes.getD cur.revealedAttributes }

/-- `getLetterPositions()`: all indices of non-space characters of the
target's name. -/
def getLetterPositions (name : List Char) : List Nat :=
  (List.range name.length).filter (fun i => name.get? i != some ' ')

/-- Result object of `revealLetter()`. -/
structure LetterReveal where
  position : Nat
  letter : Option Char
  cost : Nat
deriving DecidableEq, Repr

/-- Result object of `revealAttribute()`. -/
structure AttributeReveal where
  attributeName : String
  label : Option String
  value : Option String
  cost : Nat
deriving DecidableEq, Repr

/-- `Hints.revealLetter()` (daily.js lines 125-149): picks a random
unrevealed non-space position, appends it and re-sorts the array
ascending; returns `null` when every position is already revealed.
`rand` stands for the `Math.random()` draw. -/
def revealLetter (target : Fish) (s : HintState) (rand : Nat) :
    Option LetterReveal × HintState :=
  let allPositions := getLetterPositions target.name
  let unrevealedPositions := allPositions.filter (fun pos => !(s.revealedLetters.contains pos))
  if unrevealedPositions.length = 0 then (none, s)
  else
    let randomIndex := rand % unrevealedPositions.length
    let position := unrevealedPositions.getD randomIndex 0
    (some { position := position, letter := target.name.get? position, cost := LETTER_HINT_COST },
     { s with revealedLetters :=
         List.insertionSort (· ≤ ·) (s.revealedLetters ++ [position]) })

/-- `Hints.revealAttribute()` (daily.js lines 152-176): picks a random
unrevealed attribute name and appends it; returns `null` when all four
are already revealed. -/
def revealAttribute (target : Fish) (s : HintState) (rand : Nat) :
    Option AttributeReveal × HintState :=
  let allAttributes := ATTRIBUTE_KEYS
  let unrevealedAttributes := allAttributes.filter (fun a => !(s.revealedAttributes.contains a))
  if unrevealedAttributes.length = 0 then (none, s)
  else
    let randomIndex := rand % unrevealedAttributes.length
    let attr := unrevealedAttributes.getD randomIndex ""
    (some { attributeName := attr, label := ATTRIBUTE_LABELS.lookup attr,
            value := attributeValue target.attributes attr, cost := ATTRIBUTE_HINT_COST },
     { s with revealedAttributes := s.revealedAttributes ++ [attr] })

/-- `Hints.canRevealLetter()`. -/
def canRevealLetter (target : Fish) (s : HintState) : Bool :=
  s.revealedLetters.length < (getLetterPositions target.name).length

/-- `Hints.canRevealAttribute()`. -/
def canRevealAttribute (_target : Fish) (s : HintState) : Bool :=
  s.revealedAttributes.length < ATTRIBUTE_KEYS.length

/-- `Hints.getHintPenalty()`:
`revealedLetters.length * 10 + revealedAttributes.length * 5`. -/
def getHintPenalty (s : HintState) : Nat :=
  s.revealedLetters.length * LETTER_HINT_COST +
  s.revealedAttributes.length * ATTRIBUTE_HINT_COST

/-- States reachable from `Hints.init` by reveal operations, over all
possible random draws. -/
inductive Reachable (target : Fish) : HintState → Prop where
  | init : Reachable target (initHints target)
  | letter (s : HintState) (rand : Nat) :
      Reachable target s → Reachable target (revealLetter target s rand).2
  | attr (s : HintState) (rand : Nat) :
      Reachable target s → Reachable target (revealAttribute target s rand).2

/-! ## Helper lemmas about the hint ledger -/

/-- Membership in `getLetterPositions`: exactly the in-range non-space
indices. -/
theorem mem_getLetterPositions (name : List Char) (p : Nat) :
    p ∈ getLetterPositions name ↔ p < name.length ∧ name.get? p ≠ some ' ' := by
  simp [getLetterPositions, List.mem_filter, List.mem_range]

/-- An element picked by a modulo-reduced random index is in the list. -/
theorem getD_mod_mem {α : Type _} (l : List α) (hne : l ≠ []) (k : Nat) (d : α) :
    l.getD (k % l.length) d ∈ l := by
  have hlen : 0 < l.length := List.length_pos.mpr hne
  have hk : k % l.length < l.length := Nat.mod_lt _ hlen
  rw [List.getD_eq_get?, List.get?_eq_get hk]
  simpa using List.get_mem _ _ _

/-- Characterization of the state after `revealLetter`: either nothing
was unrevealed and the state is unchanged, or one fresh non-space
position is appended and the array re-sorted. -/
theorem revealLetter_snd (target : Fish) (s : HintState) (rand : Nat) :
    (revealLetter target s rand).2 = s ∨
    ∃ pos, pos ∈ getLetterPositions target.name ∧ pos ∉ s.revealedLetters ∧
      (revealLetter target s rand).2 =
        { s with revealedLetters :=
            List.insertionSort (· ≤ ·) (s.revealedLetters ++ [pos]) } := by
  by_cases h0 : ((getLetterPositions target.name).filter
      (fun pos => !(s.revealedLetters.contains pos))).length = 0
  · left
    simp only [revealLetter, if_pos h0]
  · right
    have hne : (getLetterPositions target.name).filter
        (fun pos => !(s.revealedLetters.contains pos)) ≠ [] := by
      intro h
      rw [h] at h0
      exact h0 rfl
    refine ⟨((getLetterPositions target.name).filter
        (fun pos => !(s.revealedLetters.contains pos))).getD
          (rand % ((getLetterPositions target.name).filter
            (fun pos => !(s.revealedLetters.contains pos))).length) 0, ?_, ?_, ?_⟩
    · exact (List.mem_filter.mp (getD_mod_mem _ hne rand 0)).1
    · have hm := (List.mem_filter.mp (getD_mod_mem _ hne rand 0)).2
      simpa using hm
    · simp only [revealLetter, if_neg h0]

/-- Characterization of the state after `revealAttribute`: either all
four attributes were revealed and the state is unchanged, or one fresh
attribute name is appended. -/
theorem revealAttribute_snd (target : Fish) (s : HintState) (rand : Nat) :
    (revealAttribute target s rand).2 = s ∨
    ∃ a, a ∈ ATTRIBUTE_KEYS ∧ a ∉ s.revealedAttributes ∧
      (revealAttribute target s rand).2 =
        { s with revealedAttributes := s.revealedAttributes ++ [a] } := by
  by_cases h0 : (ATTRIBUTE_KEYS.filter
      (fun a => !(s.revealedAttributes.contains a))).length = 0
  · left
    simp only [revealAttribute, if_pos h0]
  · right
    have hne : ATTRIBUTE_KEYS.filter
        (fun a => !(s.revealedAttributes.contains a)) ≠ [] := by
      intro h
      rw [h] at h0
      exact h0 rfl
    refine ⟨(ATTRIBUTE_KEYS.filter
        (fun a => !(s.revealedAttributes.contains a))).getD
          (rand % (ATTRIBUTE_KEYS.filter
            (fun a => !(s.revealedAttributes.contains a))).length) "", ?_, ?_, ?_⟩
    · exact (List.mem_filter.mp (getD_mod_mem _ hne rand "")).1
    · have hm := (List.mem_filter.mp (getD_mod_mem _ hne rand "")).2
      simpa using hm
    · simp only [revealAttribute, if_neg h0]

/-! ## Claims C7, C8, C9 -/

/-- C7: serializing any reachable ledger state with `getState` and
restoring it with `loadState` into a freshly initialised ledger for the
same target yields a state with identical `canRevealLetter`,
`canRevealAttribute` and `getHintPenalty` results (indeed an identical
state). -/
theorem hints_roundtrip (target : Fish) (s : HintState)
    (h : Reachable target s) :
    loadState (initHints target) (getState s) = s ∧
    canRevealLetter target (loadState (initHints target) (getState s)) =
      canRevealLetter target s ∧
    canRevealAttribute target (loadState (initHints target) (getState s)) =
      canRevealAttribute target s ∧
    getHintPenalty (loadState (initHints target) (getState s)) = getHintPenalty s :=
  ⟨rfl, rfl, rfl, rfl⟩

/-- Witness for C7: the freshly initialised state is reachable and
round-trips. -/
theorem hints_roundtrip_witness :
    Reachable sampleFish (initHints sampleFish) ∧
    (loadState (initHints sampleFish) (getState (initHints sampleFish)) =
        initHints sampleFish ∧
      canRevealLetter sampleFish
          (loadState (initHints sampleFish) (getState (initHints sampleFish))) =
        canRevealLetter sampleFish (initHints sampleFish) ∧
      canRevealAttribute sampleFish
          (loadState (initHints sampleFish) (getState (initHints sampleFish))) =
        canRevealAttribute sampleFish (initHints sampleFish) ∧
      getHintPenalty (loadState (initHints sampleFish) (getState (initHints sampleFish))) =
        getHintPenalty (initHints sampleFish)) :=
  ⟨Reachable.init, hints_roundtrip sampleFish (initHints sampleFish) Reachable.init⟩

/-- C8: two independent no-op guarantees — whenever every attribute is
already revealed, `revealAttribute` returns `null` and leaves the state
and penalty unchanged, regardless of the letters; and whenever every
non-space name position is already revealed, `revealLetter` returns
`null` and leaves the state and penalty unchanged, regardless of the
attributes. -/
theorem reveal_exhausted_noop (target : Fish) (s : HintState) (rand : Nat) :
    ((∀ a ∈ ATTRIBUTE_KEYS, a ∈ s.revealedAttributes) →
      revealAttribute target s rand = (none, s) ∧
      getHintPenalty (revealAttribute target s rand).2 = getHintPenalty s) ∧
    ((∀ p ∈ getLetterPositions target.name, p ∈ s.revealedLetters) →
      revealLetter target s rand = (none, s) ∧
      getHintPenalty (revealLetter target s rand).2 = getHintPenalty s) := by
  constructor
  · intro hA
    have hA' : ATTRIBUTE_KEYS.filter (fun a => !(s.revealedAttributes.contains a)) = [] := by
      rw [List.filter_eq_nil_iff]
      intro a ha
      simp [hA a ha]
    have e1 : revealAttribute target s rand = (none, s) := by
      simp only [revealAttribute]
      rw [hA']
      rfl
    exact ⟨e1, by rw [e1]⟩
  · intro hL
    have hL' : (getLetterPositions target.name).filter
        (fun pos => !(s.revealedLetters.contains pos)) = [] := by
      rw [List.filter_eq_nil_iff]
      intro p hp
      simp [hL p hp]
    have e2 : revealLetter target s rand = (none, s) := by
      simp only [revealLetter]
      rw [hL']
      rfl
    exact ⟨e2, by rw [e2]⟩

/-- A state with all four attributes revealed but no letters, used as a
C8 witness input. -/
def attrsExhaustedState : HintState :=
  { revealedLetters := [],
    revealedAttributes := ["habitat", "size", "family", "region"] }

/-- A state with every non-space name position of `sampleFish`
revealed but no attributes, used as a C8 witness input. -/
def lettersExhaustedState : HintState :=
  { revealedLetters := [0, 1, 2, 3, 4, 5, 6, 7, 8],
    revealedAttributes := [] }

/-- Witness for C8: each implication is exercised separately, on a
state where only the corresponding hint type is exhausted. -/
theorem reveal_exhausted_noop_witness :
    ((∀ a ∈ ATTRIBUTE_KEYS, a ∈ attrsExhaustedState.revealedAttributes) ∧
      revealAttribute sampleFish attrsExhaustedState 0 = (none, attrsExhaustedState) ∧
      getHintPenalty (revealAttribute sampleFish attrsExhaustedState 0).2 =
        getHintPenalty attrsExhaustedState) ∧
    ((∀ p ∈ getLetterPositions sampleFish.name, p ∈ lettersExhaustedState.revealedLetters) ∧
      revealLetter sampleFish lettersExhaustedState 0 = (none, lettersExhaustedState) ∧
      getHintPenalty (revealLetter sampleFish lettersExhaustedState 0).2 =
        getHintPenalty lettersExhaustedState) :=
  ⟨⟨by decide,
    (reveal_exhausted_noop sampleFish attrsExhaustedState 0).1 (by decide)⟩,
   ⟨by decide,
    (reveal_exhausted_noop sampleFish lettersExhaustedState 0).2 (by decide)⟩⟩

/-- The C9 invariant: revealed letter positions are duplicate-free,
sorted ascending and are in-range non-space positions of the target's
name; revealed attribute names are duplicate-free. -/
def HintInv (target : Fish) (s : HintState) : Prop :=
  s.revealedLetters.Nodup ∧
  s.revealedLetters.Sorted (· ≤ ·) ∧
  (∀ p ∈ s.revealedLetters, p < target.name.length ∧ target.name.get? p ≠ some ' ') ∧
  s.revealedAttributes.Nodup

/-- C9: both reveal operations preserve the ledger invariant, and
neither the revealed-letter set nor the revealed-attribute set ever
shrinks. -/
theorem hint_invariant_preserved (target : Fish) (s : HintState) (rand : Nat)
    (h : HintInv target s) :
    HintInv target (revealLetter target s rand).2 ∧
    HintInv target (revealAttribute target s rand).2 ∧
    (∀ p ∈ s.revealedLetters, p ∈ (revealLetter target s rand).2.revealedLetters) ∧
    (revealLetter target s rand).2.revealedAttributes = s.revealedAttributes ∧
    (∀ a ∈ s.revealedAttributes, a ∈ (revealAttribute target s rand).2.revealedAttributes) ∧
    (revealAttribute target s rand).2.revealedLetters = s.revealedLetters := by
  obtain ⟨hnd, hsort, hbound, hand⟩ := h
  have hL := revealLetter_snd target s rand
  have hA := revealAttribute_snd target s rand
  have hLpart : HintInv target (revealLetter target s rand).2 ∧
      (∀ p ∈ s.revealedLetters, p ∈ (revealLetter target s rand).2.revealedLetters) ∧
      (revealLetter target s rand).2.revealedAttributes = s.revealedAttributes := by
    rcases hL with hL | ⟨pos, hmem, hfresh, hL⟩
    · rw [hL]
      exact ⟨⟨hnd, hsort, hbound, hand⟩, fun p hp => hp, rfl⟩
    · rw [hL]
      have hperm : (List.insertionSort (· ≤ ·) (s.revealedLetters ++ [pos])).Perm
          (s.revealedLetters ++ [pos]) := List.perm_insertionSort _ _
      have hmem' : ∀ q, q ∈ List.insertionSort (· ≤ ·) (s.revealedLetters ++ [pos]) ↔
          q ∈ s.revealedLetters ++ [pos] := fun q => hperm.mem_iff
      refine ⟨⟨?_, ?_, ?_, hand⟩, ?_, rfl⟩
      · exact hperm.symm.nodup (by simp [List.nodup_append, hnd, hfresh])
      · exact List.sorted_insertionSort _ _
      · intro p hp
        rcases (List.mem_append.mp ((hmem' p).mp hp)) with hp' | hp'
        · exact hbound p hp'
        · have : p = pos := by simpa using hp'
          rw [this]
          exact (mem_getLetterPositions target.name pos).mp hmem
      · intro p hp
        exact (hmem' p).mpr (List.mem_append.mpr (Or.inl hp))
  have hApart : HintInv target (revealAttribute target s rand).2 ∧
      (∀ a ∈ s.revealedAttributes, a ∈ (revealAttribute target s rand).2.revealedAttributes) ∧
      (revealAttribute target s rand).2.revealedLetters = s.revealedLetters := by
    rcases hA with hA | ⟨a, _, hfresh, hA⟩
    · rw [hA]
      exact ⟨⟨hnd, hsort, hbound, hand⟩, fun q hq => hq, rfl⟩
    · rw [hA]
      refine ⟨⟨hnd, hsort, hbound, ?_⟩, ?_, rfl⟩
      · simp [List.nodup_append, hand, hfresh]
      · intro q hq
        exact List.mem_append.mpr (Or.inl hq)
  exact ⟨hLpart.1, hApart.1, hLpart.2.1, hLpart.2.2, hApart.2.1, hApart.2.2⟩

/-- Witness for C9: the empty ledger satisfies the invariant and one
reveal step preserves it. -/
theorem hint_invariant_preserved_witness :
    HintInv sampleFish (initHints sampleFish) ∧
    (HintInv sampleFish (revealLetter sampleFish (initHints sampleFish) 0).2 ∧
      HintInv sampleFish (revealAttribute sampleFish (initHints sampleFish) 0).2 ∧
      (∀ p ∈ (initHints sampleFish).revealedLetters,
        p ∈ (revealLetter sampleFish (initHints sampleFish) 0).2.revealedLetters) ∧
      (revealLetter sampleFish (initHints sampleFish) 0).2.revealedAttributes =
        (initHints sampleFish).revealedAttributes ∧
      (∀ a ∈ (initHints sampleFish).revealedAttributes,
        a ∈ (revealAttribute sampleFish (initHints sampleFish) 0).2.revealedAttributes) ∧
      (revealAttribute sampleFish (initHints sampleFish) 0).2.revealedLetters =
        (initHints sampleFish).revealedLetters) :=
  ⟨⟨List.nodup_nil, List.sorted_nil, by simp [initHints], List.nodup_nil⟩,
   hint_invariant_preserved sampleFish (initHints sampleFish) 0
     ⟨List.nodup_nil, List.sorted_nil, by simp [initHints], List.nodup_nil⟩⟩

end Fishdle
